import Mathlib

set_option autoImplicit false
set_option linter.unusedVariables false

namespace AppInsightsJira

/-!
Shallow embedding of the appinsights-jira-automation service
(`src/app.py`, `src/azure_key_vault.py`): timestamp parsing and the
dedup row key, the Azure-table seen-set, the telemetry query, the
per-record pass of the `/trigger` handler, and secret resolution.
External effects (HTTP calls, the table service, the vault) are
modelled by explicit outcome parameters.
-/

/-- Result of `dateutil.parser.parse` on a telemetry timestamp: a calendar
datetime with microsecond precision. -/
structure DateTime where
  year : Nat
  month : Nat
  day : Nat
  hour : Nat
  minute : Nat
  second : Nat
  microsecond : Nat
deriving DecidableEq

def isLeapYear (y : Nat) : Bool :=
  (y % 4 == 0 && y % 100 != 0) || y % 400 == 0

def daysInMonth (y m : Nat) : Nat :=
  if m == 2 then (if isLeapYear y then 29 else 28)
  else if m == 4 || m == 6 || m == 9 || m == 11 then 30
  else 31

def isDigitCh (c : Char) : Bool :=
  48 ≤ c.toNat && c.toNat ≤ 57

def digitsVal (cs : List Char) : Nat :=
  cs.foldl (fun acc c => acc * 10 + (c.toNat - 48)) 0

def digitsToNat (cs : List Char) : Option Nat :=
  if !cs.isEmpty && cs.all isDigitCh then some (digitsVal cs) else none

/-- Split a character list at every occurrence of `sep` (like
`str.split(sep)` in Python restricted to one-character separators). -/
def splitOnCh (sep : Char) : List Char → List (List Char)
  | [] => [[]]
  | c :: rest =>
    match splitOnCh sep rest with
    | [] => [[]]
    | g :: gs => if c == sep then [] :: g :: gs else (c :: g) :: gs

/-- Fractional-second digits to microseconds (truncating past 6 digits). -/
def fracToMicro (cs : List Char) : Option Nat :=
  if !cs.isEmpty && cs.all isDigitCh then
    some (if cs.length ≤ 6 then digitsVal cs * 10 ^ (6 - cs.length)
          else digitsVal (cs.take 6))
  else none

/-- The use `dateutil.parser.parse(timestamp)` makes of the ISO-8601
timestamps the telemetry backend emits (`YYYY-MM-DDTHH:MM:SS[.ffffff][Z]`);
`none` models the ValueError raised on a malformed timestamp. -/
def parseTimestamp (s : String) : Option DateTime :=
  let cs0 := s.toList
  let cs := if cs0.getLast? == some 'Z' then cs0.dropLast else cs0
  match splitOnCh 'T' cs with
  | [d, t] =>
    match splitOnCh '-' d, splitOnCh ':' t with
    | [ys, ms, ds], [hs, ns, secs] =>
      let sm : List Char × Option Nat :=
        match splitOnCh '.' secs with
        | [a] => (a, some 0)
        | [a, f] => (a, fracToMicro f)
        | _ => ([], none)
      match digitsToNat ys, digitsToNat ms, digitsToNat ds,
            digitsToNat hs, digitsToNat ns, digitsToNat sm.1, sm.2 with
      | some y, some mo, some dy, some h, some mi, some sec, some mic =>
        if 1 ≤ mo && mo ≤ 12 && 1 ≤ dy && dy ≤ daysInMonth y mo
            && h ≤ 23 && mi ≤ 59 && sec ≤ 59 then
          some ⟨y, mo, dy, h, mi, sec, mic⟩
        else none
      | _, _, _, _, _, _, _ => none
    | _, _ => none
  | _ => none

def natDigitsAux : Nat → Nat → List Char → List Char
  | 0, _, acc => acc
  | fuel + 1, n, acc =>
    if n < 10 then Char.ofNat (48 + n) :: acc
    else natDigitsAux fuel (n / 10) (Char.ofNat (48 + n % 10) :: acc)

/-- Decimal digits of `n`, zero-padded on the left to `width`. -/
def padNum (width n : Nat) : List Char :=
  let ds := natDigitsAux (n + 1) n []
  List.replicate (width - ds.length) '0' ++ ds

/-- `strftime("%Y%m%d%H%M%S")`: the dedup row key, which truncates the
parsed timestamp to whole-second precision. -/
def rowKeyOf (t : DateTime) : String :=
  String.mk (padNum 4 t.year ++ padNum 2 t.month ++ padNum 2 t.day ++
             padNum 2 t.hour ++ padNum 2 t.minute ++ padNum 2 t.second)

/-- Truncation of a datetime to the whole second (the information the row
key is built from). -/
def truncSec (t : DateTime) : DateTime :=
  { t with microsecond := 0 }

/-- A row of the `ExceptionTracking` Azure table (a ProcessedMarker, plus
whatever rows other writers may have put in the same table). -/
structure TableEntity where
  partitionKey : String
  rowKey : String
  jiraKey : String
  processedTime : String
  originalProblemId : String
  originalTimestamp : String
deriving DecidableEq

abbrev Table := List TableEntity

/-- Two entities denote the same stored row when partition and row key agree. -/
def sameKey (a b : TableEntity) : Bool :=
  a.partitionKey == b.partitionKey && a.rowKey == b.rowKey

/-- `upsert_entity`: insert-or-replace keyed on (PartitionKey, RowKey). -/
def upsertEntity (t : Table) (e : TableEntity) : Table :=
  if t.any (fun x => sameKey x e) then t.map (fun x => if sameKey x e then e else x)
  else t ++ [e]

/-- The rows matched by the filter string `RowKey eq <row_key>` used in
`is_exception_processed`: it constrains only the row key, not the partition. -/
def rowKeyFilter (t : Table) (k : String) : Table :=
  t.filter (fun x => x.rowKey == k)

/-- `is_exception_processed(problem_id, timestamp)`.  `storeUp` models
whether `get_table_client()` produced a client (its ConnectionError lands in
the outer handler, which returns False); `queryOk` models whether
`query_entities` raised.  When the query raises, Python evaluates the first
except clause `azure.core.exceptions.ResourceNotFoundError`; the name
`azure` is unbound (only `from azure.core.exceptions import ...` ran), so a
NameError escapes past the remaining handlers into the outer
`except Exception`, which returns False — hence every query failure,
table-not-found included, yields False.  `problem_id` is unused, as in the
source. -/
def is_exception_processed (storeUp queryOk : Bool) (t : Table)
    (problem_id timestamp : String) : Bool :=
  if !storeUp then false
  else
    match parseTimestamp timestamp with
    | none => false
    | some dt =>
      if !queryOk then false
      else !(rowKeyFilter t (rowKeyOf dt)).isEmpty

/-- Outcome of one `upsert_entity` attempt inside `mark_exception_processed`. -/
inductive UpsertOutcome where
  | success
  | tableNotFound
  | otherError
deriving DecidableEq

/-- Final table plus whether the marker row was actually written. -/
structure MarkResult where
  table : Table
  written : Bool
deriving DecidableEq

/-- The `while retry_count < max_retries` loop of `mark_exception_processed`,
driven by the schedule of outcomes the table service would give to the
successive upsert attempts.  When an attempt fails, Python evaluates the
clause `except azure.core.exceptions.ResourceNotFoundError:`; the name
`azure` is unbound, so that evaluation raises NameError, which skips the
remaining handlers of the same `try` (including `except Exception`) and
escapes to the outer handler of `mark_exception_processed`.  Consequently
the loop body runs at most once and the tail of the schedule is never
consumed: no table recreation (`ensure_table_exists` is undefined anyway)
and no retry ever happens. -/
def markAttempts (t : Table) (e : TableEntity) : List UpsertOutcome → MarkResult
  | [] => ⟨t, false⟩
  | o :: _ =>
    match o with
    | .success => ⟨upsertEntity t e, true⟩
    | .tableNotFound => ⟨t, false⟩
    | .otherError => ⟨t, false⟩

/-- `mark_exception_processed(problem_id, timestamp, jira_key)`; `now` is
`datetime.utcnow().isoformat()`.  Never raises to its caller. -/
def mark_exception_processed (storeUp : Bool) (t : Table)
    (problem_id timestamp jira_key now : String)
    (outcomes : List UpsertOutcome) : MarkResult :=
  if !storeUp then ⟨t, false⟩
  else
    match parseTimestamp timestamp with
    | none => ⟨t, false⟩
    | some dt =>
      markAttempts t ⟨"exceptions", rowKeyOf dt, jira_key, now, problem_id, timestamp⟩ outcomes

/-- The `details` dictionary built by `query_app_insights` for each row. -/
structure ExceptionDetails where
  type : String
  message : String
  customDimensions : String
deriving DecidableEq

/-- One formatted row `[timestamp, problemId, details]` returned by
`query_app_insights` and consumed by `manual_trigger`. -/
structure ExceptionRow where
  timestamp : String
  problemId : String
  details : ExceptionDetails
deriving DecidableEq

/-- Observable outcome of `create_jira_issue` for one record:
a 2xx response whose JSON body contains a `key` field, a 2xx response whose
body is falsy or lacks `key` (so `if jira_response and 'key' in
jira_response` is false), or a raised request error. -/
inductive JiraResult where
  | ok (key : String)
  | okNoKey
  | err
deriving DecidableEq

/-- The external world a single `/trigger` pass interacts with, indexed by
the position of the record in the fetched list: whether the table client is
available, whether the dedup query succeeds, the Jira outcome, and the
schedule of upsert outcomes for the marking of that record. -/
structure PassEnv where
  storeUp : Bool
  queryOk : Nat → Bool
  jira : Nat → JiraResult
  markOutcomes : Nat → List UpsertOutcome
  now : String

/-- State threaded through the `for row in exceptions` loop of
`manual_trigger`, extended with counters for the externally visible calls
(Jira ticket creations attempted, dedup reads, dedup mark attempts). -/
structure PassState where
  table : Table
  created : Nat
  skipped : Nat
  jiraCalls : Nat
  storeReads : Nat
  markCalls : Nat
deriving DecidableEq

def initState (t : Table) : PassState :=
  ⟨t, 0, 0, 0, 0, 0⟩

/-- One iteration of the `for row in exceptions` loop of `manual_trigger`:
skip if already processed; otherwise create the Jira ticket; on a response
bearing a `key`, mark the exception processed and count it created; a
raised creation error is caught by the per-record handler and the loop
continues; a keyless success falls through silently. -/
def processRecord (env : PassEnv) (idx : Nat) (row : ExceptionRow) (s : PassState) : PassState :=
  if is_exception_processed env.storeUp (env.queryOk idx) s.table row.problemId row.timestamp then
    { s with storeReads := s.storeReads + 1, skipped := s.skipped + 1 }
  else
    match env.jira idx with
    | .err => { s with storeReads := s.storeReads + 1, jiraCalls := s.jiraCalls + 1 }
    | .okNoKey => { s with storeReads := s.storeReads + 1, jiraCalls := s.jiraCalls + 1 }
    | .ok key =>
      { s with
        storeReads := s.storeReads + 1
        jiraCalls := s.jiraCalls + 1
        table := (mark_exception_processed env.storeUp s.table row.problemId row.timestamp
                    key env.now (env.markOutcomes idx)).table
        markCalls := s.markCalls + 1
        created := s.created + 1 }

/-- The whole record loop of `manual_trigger`. -/
def passLoop (env : PassEnv) : List ExceptionRow → Nat → PassState → PassState
  | [], _, s => s
  | row :: rest, idx, s => passLoop env rest (idx + 1) (processRecord env idx row s)

/-- The `summary` object serialized by `/trigger`. -/
structure Summary where
  total_exceptions : Nat
  tickets_created : Nat
  skipped : Nat
deriving DecidableEq

/-- `manual_trigger` (the `/trigger` handler), parameterized by the list
`query_app_insights` returned: on an empty list it returns the zero summary
before touching Jira or the table; otherwise it runs the record loop and
reports `len(exceptions)`, `created` and `skipped`. -/
def runPass (env : PassEnv) (t : Table) (exceptions : List ExceptionRow) :
    Summary × PassState :=
  if exceptions.isEmpty then (⟨0, 0, 0⟩, initState t)
  else
    let s := passLoop env exceptions 0 (initState t)
    (⟨exceptions.length, s.created, s.skipped⟩, s)

/-- A column descriptor of the App Insights tabular response. -/
structure AIColumn where
  name : String
deriving DecidableEq

/-- One table of the App Insights tabular response; cell values are opaque
to the code, which only moves them around. -/
structure AITable where
  columns : List AIColumn
  rows : List (List String)
deriving DecidableEq

/-- Parsed JSON body of the App Insights response; `tables = none` models a
body without a `tables` key. -/
structure AIBody where
  tables : Option (List AITable)
deriving DecidableEq

/-- The HTTP response of the telemetry backend; `body = none` models a body
on which `response.json()` raises. -/
structure HttpResponse where
  status : Nat
  body : Option AIBody
deriving DecidableEq

/-- An exception escaping some step of the try-block of
`query_app_insights`. -/
inductive PyError where
  | jsonError
  | keyError
deriving DecidableEq

/-- `dict(zip(columns, row))[name]`: Python dicts keep the last value bound
to a duplicate key, hence the lookup over the reversed pairing; `none` is a
KeyError. -/
def dictZipGet (cols : List String) (row : List String) (name : String) : Option String :=
  ((cols.zip row).reverse.find? (fun p => p.1 == name)).map (fun p => p.2)

/-- Building `formatted_row = [timestamp, problemId, {type, message,
customDimensions}]` for one row; `none` is a KeyError on a missing column. -/
def formatRow (cols : List String) (row : List String) : Option ExceptionRow :=
  match dictZipGet cols row "timestamp", dictZipGet cols row "problemId",
        dictZipGet cols row "type", dictZipGet cols row "outerMessage",
        dictZipGet cols row "customDimensions" with
  | some ts, some pid, some ty, some msg, some cd => some ⟨ts, pid, ⟨ty, msg, cd⟩⟩
  | _, _, _, _, _ => none

/-- The try-block of `query_app_insights`: missing credentials and non-200
statuses return `[]` normally; `Except.error` marks an exception that would
reach its `except` clause (malformed JSON, or a row lacking one of the five
projected columns). -/
def queryBody (credsPresent : Bool) (resp : HttpResponse) :
    Except PyError (List ExceptionRow) :=
  if !credsPresent then .ok []
  else if resp.status != 200 then .ok []
  else
    match resp.body with
    | none => .error .jsonError
    | some body =>
      match body.tables with
      | none => .ok []
      | some [] => .ok []
      | some (tbl :: _) =>
        match tbl.rows.mapM (formatRow (tbl.columns.map (fun c => c.name))) with
        | none => .error .keyError
        | some rows => .ok rows

/-- `query_app_insights`: the whole body runs under `try`, and the handler
returns `[]`, so the function never raises to its caller. -/
def query_app_insights (credsPresent : Bool) (resp : HttpResponse) : List ExceptionRow :=
  match queryBody credsPresent resp with
  | .ok l => l
  | .error _ => []

/-- `/appget` (`get_app_insights_data`): HTTP status and the `count` field.
The 500 branch runs only when the try-block raises; the try-block calls
`query_app_insights`, which converts every internal failure to `[]` and is
total, so the match below is on an always-`ok` value. -/
def get_app_insights_data (credsPresent : Bool) (resp : HttpResponse) : Nat × Nat :=
  match (Except.ok (query_app_insights credsPresent resp) : Except PyError (List ExceptionRow)) with
  | .ok exs => (200, exs.length)
  | .error _ => (500, 0)

/-- `AzureKeyVaultClient.REQUIRED_SECRETS`. -/
def REQUIRED_SECRETS : List String :=
  ["APPINSIGHTS-APP-ID", "APPINSIGHTS-API-KEY", "JIRA-EMAIL", "JIRA-TOKEN",
   "JIRA-URL", "JIRA-PROJECT", "AZURE-CONNECTION-STRING"]

/-- `secret_name.replace("-", "_")`. -/
def envNameOf (s : String) : String :=
  String.mk (s.toList.map (fun c => if c == '-' then '_' else c))

/-- The truthiness test `if env_value:` applied to
`os.environ.get(env_name)`: present and non-empty. -/
def envSet (env : String → Option String) (s : String) : Bool :=
  match env (envNameOf s) with
  | some v => !(v == "")
  | none => false

/-- The `secrets_to_fetch` list: the names queued for a Key Vault lookup
because the environment check found no truthy value. -/
def secretsToFetch (env : String → Option String) : List String :=
  REQUIRED_SECRETS.filter (fun s => !envSet env s)

/-- The entries `get_required_secrets` takes from the environment, keyed by
the transformed name. -/
def envSecrets (env : String → Option String) : List (String × String) :=
  REQUIRED_SECRETS.filterMap (fun s =>
    match env (envNameOf s) with
    | some v => if v == "" then none else some (envNameOf s, v)
    | none => none)

/-- Outcome of `_get_secret_with_retry` for one name: the value, a
ResourceNotFoundError, or any other error (both land in `missing_secrets`). -/
inductive VaultResult where
  | found (v : String)
  | notFound
  | failed
deriving DecidableEq

/-- The Key Vault fetch phase: retrieved entries and missing names, in
iteration order. -/
def vaultFetch (vault : String → VaultResult) :
    List String → List (String × String) × List String
  | [] => ([], [])
  | s :: rest =>
    let r := vaultFetch vault rest
    match vault s with
    | .found v => ((envNameOf s, v) :: r.1, r.2)
    | .notFound => (r.1, s :: r.2)
    | .failed => (r.1, s :: r.2)

/-- `AzureKeyVaultClient.get_required_secrets`: environment first, vault for
the rest; `Except.error` is the ValueError naming the missing secrets. -/
def get_required_secrets (env : String → Option String) (vault : String → VaultResult) :
    Except (List String) (List (String × String)) :=
  let fetched := vaultFetch vault (secretsToFetch env)
  if fetched.2.isEmpty then .ok (envSecrets env ++ fetched.1) else .error fetched.2

theorem rowKeyOf_truncSec (d : DateTime) : rowKeyOf (truncSec d) = rowKeyOf d := rfl

theorem self_mem_upsertEntity (t : Table) (e : TableEntity) : e ∈ upsertEntity t e := by
  unfold upsertEntity
  split
  · next h =>
    rcases List.any_eq_true.mp h with ⟨x, hx, hkey⟩
    exact List.mem_map.mpr ⟨x, hx, by simp [hkey]⟩
  · exact List.mem_append_right t (List.mem_singleton.mpr rfl)

theorem sameKey_fields {x e : TableEntity} (h : sameKey x e = true) :
    x.partitionKey = e.partitionKey ∧ x.rowKey = e.rowKey := by
  unfold sameKey at h
  simpa using h

theorem upsertEntity_of_not_found (t : Table) (e : TableEntity)
    (h : rowKeyFilter t e.rowKey = []) : upsertEntity t e = t ++ [e] := by
  unfold upsertEntity
  have hany : t.any (fun x => sameKey x e) = false := by
    rw [Bool.eq_false_iff]
    intro hc
    rcases List.any_eq_true.mp hc with ⟨x, hx, hkey⟩
    have hrk : (x.rowKey == e.rowKey) = true := beq_iff_eq.mpr (sameKey_fields hkey).2
    have hmem : x ∈ rowKeyFilter t e.rowKey := List.mem_filter.mpr ⟨hx, hrk⟩
    rw [h] at hmem
    exact absurd hmem (List.not_mem_nil x)
  simp [hany]

theorem upsertEntity_of_found (t : Table) (e : TableEntity) (x : TableEntity)
    (hx : x ∈ t) (hkey : sameKey x e = true) :
    upsertEntity t e = t.map (fun y => if sameKey y e then e else y) := by
  unfold upsertEntity
  have hany : t.any (fun y => sameKey y e) = true :=
    List.any_eq_true.mpr ⟨x, hx, hkey⟩
  simp [hany]

theorem rowKeyFilter_append (t1 t2 : Table) (k : String) :
    rowKeyFilter (t1 ++ t2) k = rowKeyFilter t1 k ++ rowKeyFilter t2 k := by
  unfold rowKeyFilter
  exact List.filter_append t1 t2

theorem rowKeyFilter_isEmpty_false_of_mem (t : Table) (e : TableEntity) (k : String)
    (hm : e ∈ t) (hk : e.rowKey = k) : (rowKeyFilter t k).isEmpty = false := by
  have hmem : e ∈ rowKeyFilter t k := List.mem_filter.mpr ⟨hm, by simp [hk]⟩
  cases hfe : rowKeyFilter t k with
  | nil => rw [hfe] at hmem; exact absurd hmem (List.not_mem_nil e)
  | cons a l => rfl

theorem map_replace_id (t : Table) (e2 : TableEntity) (k : String)
    (h : rowKeyFilter t k = []) (hk2 : e2.rowKey = k) :
    t.map (fun x => if sameKey x e2 then e2 else x) = t := by
  induction t with
  | nil => rfl
  | cons x xs ih =>
    have hx : (x.rowKey == k) = false := by
      have := List.filter_eq_nil_iff.mp h x (List.mem_cons_self x xs)
      simpa using this
    have hxs : rowKeyFilter xs k = [] := by
      have hstep := @List.filter_cons_of_neg TableEntity (fun y => y.rowKey == k) x xs
        (by simp [hx])
      have h3 : List.filter (fun y : TableEntity => y.rowKey == k) (x :: xs) = [] := h
      rw [hstep] at h3
      exact h3
    have hsk : sameKey x e2 = false := by
      rw [Bool.eq_false_iff]
      intro hc
      have hrk : x.rowKey = k := ((sameKey_fields hc).2).trans hk2
      rw [beq_iff_eq.mpr hrk] at hx
      exact absurd hx (by simp)
    simp [hsk, ih hxs]

theorem rowKeyFilter_map_replace (t : Table) (e1 e2 : TableEntity) (k : String)
    (h : rowKeyFilter t k = [e1]) (hpk : e1.partitionKey = e2.partitionKey)
    (hk2 : e2.rowKey = k) :
    rowKeyFilter (t.map (fun x => if sameKey x e2 then e2 else x)) k = [e2] := by
  induction t with
  | nil => simp [rowKeyFilter] at h
  | cons x xs ih =>
    by_cases hx : (x.rowKey == k) = true
    · have hcons : x :: rowKeyFilter xs k = [e1] := by
        have hstep := @List.filter_cons_of_pos TableEntity (fun y => y.rowKey == k) x xs hx
        have h3 : List.filter (fun y : TableEntity => y.rowKey == k) (x :: xs) = [e1] := h
        rw [hstep] at h3
        exact h3
      have hxe : x = e1 := (List.cons_eq_cons.mp hcons).1
      have hxs : rowKeyFilter xs k = [] := (List.cons_eq_cons.mp hcons).2
      have hsk : sameKey x e2 = true := by
        unfold sameKey
        have h1 : x.partitionKey = e2.partitionKey := by rw [hxe]; exact hpk
        have h2 : x.rowKey = e2.rowKey := by rw [hk2]; exact beq_iff_eq.mp hx
        simp [h1, h2]
      have htl : xs.map (fun y => if sameKey y e2 then e2 else y) = xs :=
        map_replace_id xs e2 k hxs hk2
      have hxs2 : List.filter (fun y : TableEntity => y.rowKey == k) xs = [] := hxs
      have he2 : (e2.rowKey == k) = true := beq_iff_eq.mpr hk2
      simp [rowKeyFilter, hsk, htl, he2, hxs2]
    · have hxb : (x.rowKey == k) = false := Bool.eq_false_iff.mpr hx
      have hxs : rowKeyFilter xs k = [e1] := by
        have hstep := @List.filter_cons_of_neg TableEntity (fun y => y.rowKey == k) x xs
          (by simp [hxb])
        have h3 : List.filter (fun y : TableEntity => y.rowKey == k) (x :: xs) = [e1] := h
        rw [hstep] at h3
        exact h3
      have hsk : sameKey x e2 = false := by
        rw [Bool.eq_false_iff]
        intro hc
        exact hx (beq_iff_eq.mpr (((sameKey_fields hc).2).trans hk2))
      have hrec := ih hxs
      simpa [rowKeyFilter, hsk, hxb] using hrec

theorem processRecord_counts (env : PassEnv) (idx : Nat) (row : ExceptionRow) (s : PassState) :
    (processRecord env idx row s).created + (processRecord env idx row s).skipped ≤
      s.created + s.skipped + 1 := by
  obtain ⟨tb, cr, sk, jc, sr, mc⟩ := s
  unfold processRecord
  split
  · show cr + (sk + 1) ≤ cr + sk + 1
    omega
  · split
    · show cr + sk ≤ cr + sk + 1
      omega
    · show cr + sk ≤ cr + sk + 1
      omega
    · show cr + 1 + sk ≤ cr + sk + 1
      omega

theorem passLoop_counts (env : PassEnv) (l : List ExceptionRow) :
    ∀ (idx : Nat) (s : PassState),
      (passLoop env l idx s).created + (passLoop env l idx s).skipped ≤
        s.created + s.skipped + l.length := by
  induction l with
  | nil => intro idx s; simp [passLoop]
  | cons row rest ih =>
    intro idx s
    have h1 := processRecord_counts env idx row s
    have h2 := ih (idx + 1) (processRecord env idx row s)
    simp only [passLoop, List.length_cons]
    omega

/-- Claim C3 (code bug): the claim says `mark_exception_processed` recreates
the table on a table-not-found error and retries the upsert up to 3 attempts,
and retries other errors within the same bound.  In the source, any upsert
failure makes Python evaluate the clause
`except azure.core.exceptions.ResourceNotFoundError:`, whose name `azure` is
unbound, so a NameError escapes the retry loop to the outer handler at once:
even with a schedule whose later attempts would succeed, a first
table-not-found (or any other first error) ends the operation with nothing
written and the remaining attempts unused. -/
theorem spec_C3 :
    mark_exception_processed true [] "P1" "2024-01-01T00:00:00Z" "JIRA-1"
        "2024-01-01T00:05:00" [.tableNotFound, .success, .success] = ⟨[], false⟩ ∧
    mark_exception_processed true [] "P1" "2024-01-01T00:00:00Z" "JIRA-1"
        "2024-01-01T00:05:00" [.otherError, .success, .success] = ⟨[], false⟩ := by
  decide

/-- Claim C4: during a pass, a ticket-creation failure for one record never
aborts the pass (the loop on the remaining records proceeds from an
unchanged table, with only the read and ticket-attempt counters advanced),
and in every returned summary `skipped + tickets_created ≤ total_exceptions`
(records whose ticket creation failed are counted in neither). -/
theorem spec_C4 :
    (∀ (env : PassEnv) (t : Table) (exceptions : List ExceptionRow),
        (runPass env t exceptions).1.skipped + (runPass env t exceptions).1.tickets_created ≤
          (runPass env t exceptions).1.total_exceptions) ∧
    (∀ (env : PassEnv) (idx : Nat) (row : ExceptionRow) (rest : List ExceptionRow)
        (s : PassState),
        is_exception_processed env.storeUp (env.queryOk idx) s.table
          row.problemId row.timestamp = false →
        env.jira idx = .err →
        passLoop env (row :: rest) idx s =
          passLoop env rest (idx + 1)
            { s with storeReads := s.storeReads + 1, jiraCalls := s.jiraCalls + 1 }) := by
  constructor
  · intro env t exceptions
    cases he : exceptions.isEmpty
    · have h := passLoop_counts env exceptions 0 (initState t)
      simp [initState] at h
      simp [runPass, he, initState]
      omega
    · simp [runPass, he]
  · intro env idx row rest s hnp hj
    simp [passLoop, processRecord, hnp, hj]

def sampleRow : ExceptionRow :=
  ⟨"2024-01-01T00:00:00Z", "P1", ⟨"System.NullReferenceException", "boom", "env=prod"⟩⟩

def failEnv : PassEnv :=
  ⟨true, fun _ => true, fun _ => .err, fun _ => [.success], "2024-01-02T00:00:00"⟩

theorem spec_C4_witness :
    ((runPass failEnv [] [sampleRow]).1.skipped +
        (runPass failEnv [] [sampleRow]).1.tickets_created ≤
      (runPass failEnv [] [sampleRow]).1.total_exceptions) ∧
    passLoop failEnv [sampleRow] 0 (initState []) =
      passLoop failEnv [] 1 ⟨[], 0, 0, 1, 1, 0⟩ :=
  ⟨spec_C4.1 failEnv [] [sampleRow],
   spec_C4.2 failEnv 0 sampleRow [] (initState []) (by decide) rfl⟩

/-- Claim C9: when ticket creation returns a success response whose body
lacks a `key` field, the record is silently dropped for the pass: the table
is unchanged (no ProcessedMarker written, no mark attempt), neither
`created` nor `skipped` is incremented, and the loop continues with the
remaining records; since the table is unchanged the record stays eligible
on a future pass. -/
theorem spec_C9 (env : PassEnv) (idx : Nat) (row : ExceptionRow) (rest : List ExceptionRow)
    (s : PassState)
    (hnp : is_exception_processed env.storeUp (env.queryOk idx) s.table
      row.problemId row.timestamp = false)
    (hj : env.jira idx = .okNoKey) :
    passLoop env (row :: rest) idx s =
      passLoop env rest (idx + 1)
        { s with storeReads := s.storeReads + 1, jiraCalls := s.jiraCalls + 1 } := by
  simp [passLoop, processRecord, hnp, hj]

def noKeyEnv : PassEnv :=
  ⟨true, fun _ => true, fun _ => .okNoKey, fun _ => [.success], "2024-01-02T00:00:00"⟩

theorem spec_C9_witness :
    passLoop noKeyEnv [sampleRow] 0 (initState []) =
      passLoop noKeyEnv [] 1 ⟨[], 0, 0, 1, 1, 0⟩ :=
  spec_C9 noKeyEnv 0 sampleRow [] (initState []) (by decide) rfl

/-- Claim C7: on an empty exception list `manual_trigger` returns the zero
summary and performs no Jira call, no dedup read and no mark attempt, with
the table untouched (all counters of the final state are zero). -/
theorem spec_C7 (env : PassEnv) (t : Table) :
    runPass env t [] = (⟨0, 0, 0⟩, ⟨t, 0, 0, 0, 0, 0⟩) := rfl

/-- Claim C10: the 500 branch of `/appget` is unreachable:
`query_app_insights` is total (every internal failure is converted to `[]`
inside it, see `queryBody`), so the handler always answers 200 with `count`
equal to the number of returned exception records. -/
theorem spec_C10 (credsPresent : Bool) (resp : HttpResponse) :
    get_app_insights_data credsPresent resp =
      (200, (query_app_insights credsPresent resp).length) := rfl

theorem vaultFetch_missing_nil (vault : String → VaultResult) :
    ∀ (names : List String), (∀ s ∈ names, ∃ w, vault s = .found w) →
      (vaultFetch vault names).2 = [] := by
  intro names
  induction names with
  | nil => intro h; rfl
  | cons a rest ih =>
    intro h
    rcases h a (List.mem_cons_self a rest) with ⟨w, hw⟩
    have ihr := ih (fun x hx => h x (List.mem_cons_of_mem a hx))
    simp [vaultFetch, hw, ihr]

/-- Claim C2: before any marking whose timestamp truncates to the same
second (no row with the derived row key in the table),
`is_exception_processed` returns false, whatever the store availability;
after a successful `mark_exception_processed` with a timestamp of the same
whole second it returns true; and a second successful mark within the same
second is an upsert overwrite of the same row — the table ends with exactly
one row under that row key, carrying the second write's fields — not a
duplicate row. -/
theorem spec_C2 :
    (∀ (storeUp queryOk : Bool) (t : Table) (pid ts : String) (dt : DateTime),
        parseTimestamp ts = some dt →
        (∀ e ∈ t, e.rowKey ≠ rowKeyOf dt) →
        is_exception_processed storeUp queryOk t pid ts = false) ∧
    (∀ (t : Table) (pid pid2 ts ts2 jk now : String) (dt dt2 : DateTime),
        parseTimestamp ts = some dt → parseTimestamp ts2 = some dt2 →
        truncSec dt = truncSec dt2 →
        is_exception_processed true true
          (mark_exception_processed true t pid2 ts2 jk now [.success]).table pid ts = true) ∧
    (∀ (t : Table) (pid1 pid2 ts1 ts2 jk1 jk2 n1 n2 : String) (dt1 dt2 : DateTime),
        parseTimestamp ts1 = some dt1 → parseTimestamp ts2 = some dt2 →
        truncSec dt1 = truncSec dt2 →
        rowKeyFilter t (rowKeyOf dt1) = [] →
        rowKeyFilter
          (mark_exception_processed true
            (mark_exception_processed true t pid1 ts1 jk1 n1 [.success]).table
            pid2 ts2 jk2 n2 [.success]).table (rowKeyOf dt1) =
          [⟨"exceptions", rowKeyOf dt2, jk2, n2, pid2, ts2⟩]) := by
  refine ⟨?_, ?_, ?_⟩
  · intro storeUp queryOk t pid ts dt hp hnone
    have hfilter : rowKeyFilter t (rowKeyOf dt) = [] := by
      apply List.filter_eq_nil_iff.mpr
      intro e he
      simp [hnone e he]
    cases storeUp with
    | false => simp [is_exception_processed]
    | true =>
      cases queryOk with
      | false => simp [is_exception_processed, hp]
      | true => simp [is_exception_processed, hp, hfilter]
  · intro t pid pid2 ts ts2 jk now dt dt2 hp hp2 htr
    have hkk : rowKeyOf dt = rowKeyOf dt2 := by
      rw [← rowKeyOf_truncSec dt, htr, rowKeyOf_truncSec]
    have hmark : (mark_exception_processed true t pid2 ts2 jk now [.success]).table =
        upsertEntity t ⟨"exceptions", rowKeyOf dt2, jk, now, pid2, ts2⟩ := by
      simp [mark_exception_processed, hp2, markAttempts]
    have hmem := self_mem_upsertEntity t ⟨"exceptions", rowKeyOf dt2, jk, now, pid2, ts2⟩
    have hempty : (rowKeyFilter
        (upsertEntity t ⟨"exceptions", rowKeyOf dt2, jk, now, pid2, ts2⟩)
        (rowKeyOf dt)).isEmpty = false := by
      apply rowKeyFilter_isEmpty_false_of_mem _ _ _ hmem
      show rowKeyOf dt2 = rowKeyOf dt
      exact hkk.symm
    simp [is_exception_processed, hp, hmark, hempty]
  · intro t pid1 pid2 ts1 ts2 jk1 jk2 n1 n2 dt1 dt2 hp1 hp2 htr hnew
    have hkk : rowKeyOf dt1 = rowKeyOf dt2 := by
      rw [← rowKeyOf_truncSec dt1, htr, rowKeyOf_truncSec]
    have hm1 : (mark_exception_processed true t pid1 ts1 jk1 n1 [.success]).table =
        upsertEntity t ⟨"exceptions", rowKeyOf dt1, jk1, n1, pid1, ts1⟩ := by
      simp [mark_exception_processed, hp1, markAttempts]
    have hup1 : upsertEntity t ⟨"exceptions", rowKeyOf dt1, jk1, n1, pid1, ts1⟩ =
        t ++ [⟨"exceptions", rowKeyOf dt1, jk1, n1, pid1, ts1⟩] :=
      upsertEntity_of_not_found t _ hnew
    have hf1 : rowKeyFilter (t ++ [⟨"exceptions", rowKeyOf dt1, jk1, n1, pid1, ts1⟩])
        (rowKeyOf dt1) = [⟨"exceptions", rowKeyOf dt1, jk1, n1, pid1, ts1⟩] := by
      rw [rowKeyFilter_append, hnew]
      simp [rowKeyFilter]
    have hm2 : (mark_exception_processed true
        (t ++ [⟨"exceptions", rowKeyOf dt1, jk1, n1, pid1, ts1⟩]) pid2 ts2 jk2 n2
        [.success]).table =
        upsertEntity (t ++ [⟨"exceptions", rowKeyOf dt1, jk1, n1, pid1, ts1⟩])
          ⟨"exceptions", rowKeyOf dt2, jk2, n2, pid2, ts2⟩ := by
      simp [mark_exception_processed, hp2, markAttempts]
    have hfound : upsertEntity (t ++ [⟨"exceptions", rowKeyOf dt1, jk1, n1, pid1, ts1⟩])
        ⟨"exceptions", rowKeyOf dt2, jk2, n2, pid2, ts2⟩ =
        ((t ++ [⟨"exceptions", rowKeyOf dt1, jk1, n1, pid1, ts1⟩] : Table)).map
          (fun x => if sameKey x ⟨"exceptions", rowKeyOf dt2, jk2, n2, pid2, ts2⟩ then
            (⟨"exceptions", rowKeyOf dt2, jk2, n2, pid2, ts2⟩ : TableEntity) else x) := by
      apply upsertEntity_of_found _ _ ⟨"exceptions", rowKeyOf dt1, jk1, n1, pid1, ts1⟩
      · exact List.mem_append_right t (List.mem_singleton.mpr rfl)
      · unfold sameKey
        simp [hkk]
    have hfinal := rowKeyFilter_map_replace
      (t ++ [⟨"exceptions", rowKeyOf dt1, jk1, n1, pid1, ts1⟩])
      ⟨"exceptions", rowKeyOf dt1, jk1, n1, pid1, ts1⟩
      ⟨"exceptions", rowKeyOf dt2, jk2, n2, pid2, ts2⟩
      (rowKeyOf dt1) hf1 rfl hkk.symm
    rw [hm1, hup1, hm2, hfound]
    exact hfinal

theorem spec_C2_witness :
    is_exception_processed true true [] "P1" "2024-01-01T00:00:00Z" = false ∧
    is_exception_processed true true
      (mark_exception_processed true [] "P2" "2024-01-01T00:00:00.250Z" "J-2"
        "2024-01-01T00:10:00" [.success]).table "P1" "2024-01-01T00:00:00Z" = true ∧
    rowKeyFilter
      (mark_exception_processed true
        (mark_exception_processed true [] "P1" "2024-01-01T00:00:00Z" "J-1" "n1"
          [.success]).table "P2" "2024-01-01T00:00:00.250Z" "J-2" "n2" [.success]).table
      (rowKeyOf ⟨2024, 1, 1, 0, 0, 0, 0⟩) =
      [⟨"exceptions", rowKeyOf ⟨2024, 1, 1, 0, 0, 0, 250000⟩, "J-2", "n2", "P2",
        "2024-01-01T00:00:00.250Z"⟩] :=
  ⟨spec_C2.1 true true [] "P1" "2024-01-01T00:00:00Z" ⟨2024, 1, 1, 0, 0, 0, 0⟩
      (by decide) (by intro e he; exact absurd he (List.not_mem_nil e)),
   spec_C2.2.1 [] "P1" "P2" "2024-01-01T00:00:00Z" "2024-01-01T00:00:00.250Z" "J-2"
      "2024-01-01T00:10:00" ⟨2024, 1, 1, 0, 0, 0, 0⟩ ⟨2024, 1, 1, 0, 0, 0, 250000⟩
      (by decide) (by decide) (by decide),
   spec_C2.2.2 [] "P1" "P2" "2024-01-01T00:00:00Z" "2024-01-01T00:00:00.250Z" "J-1" "J-2"
      "n1" "n2" ⟨2024, 1, 1, 0, 0, 0, 0⟩ ⟨2024, 1, 1, 0, 0, 0, 250000⟩
      (by decide) (by decide) (by decide) rfl⟩

def crossPartitionRow : TableEntity :=
  ⟨"other-partition", "20240101000000", "", "", "", ""⟩

/-- Claim C6 counterexample: the claim says the dedup query matches the row
key "within the fixed partition", but the filter string constrains only
RowKey: on a table whose only row with the derived key sits in another
partition, `is_exception_processed` returns true although no row of
partition `exceptions` matches. -/
theorem spec_C6_counterexample :
    is_exception_processed true true [crossPartitionRow] "P1" "2024-01-01T00:00:00Z" = true ∧
    List.filter (fun e : TableEntity =>
      e.partitionKey == "exceptions" && e.rowKey == "20240101000000")
      [crossPartitionRow] = [] := by
  decide

/-- Claim C6 (amended): `is_exception_processed` derives the row key from
the timestamp and queries for an exact row-key match in any partition (the
filter does not constrain the partition key), returning true iff at least
one row with that row key exists; it returns false when the table client is
unavailable, when the query raises, and when the timestamp does not parse. -/
theorem spec_C6 :
    (∀ (q : Bool) (t : Table) (pid ts : String),
        is_exception_processed false q t pid ts = false) ∧
    (∀ (u : Bool) (t : Table) (pid ts : String),
        is_exception_processed u false t pid ts = false) ∧
    (∀ (u q : Bool) (t : Table) (pid ts : String),
        parseTimestamp ts = none → is_exception_processed u q t pid ts = false) ∧
    (∀ (t : Table) (pid ts : String) (dt : DateTime),
        parseTimestamp ts = some dt →
        (is_exception_processed true true t pid ts = true ↔
          ∃ e ∈ t, e.rowKey = rowKeyOf dt)) := by
  refine ⟨?_, ?_, ?_, ?_⟩
  · intro q t pid ts
    simp [is_exception_processed]
  · intro u t pid ts
    cases u with
    | false => simp [is_exception_processed]
    | true =>
      cases hp : parseTimestamp ts with
      | none => simp [is_exception_processed, hp]
      | some dt => simp [is_exception_processed, hp]
  · intro u q t pid ts hp
    cases u with
    | false => simp [is_exception_processed]
    | true => simp [is_exception_processed, hp]
  · intro t pid ts dt hp
    have hred : is_exception_processed true true t pid ts =
        !(rowKeyFilter t (rowKeyOf dt)).isEmpty := by
      simp [is_exception_processed, hp]
    rw [hred]
    constructor
    · intro h
      have hne : rowKeyFilter t (rowKeyOf dt) ≠ [] := by
        intro hnil
        rw [hnil] at h
        simp at h
      rcases List.exists_mem_of_ne_nil _ hne with ⟨x, hx⟩
      have hx2 := List.mem_filter.mp hx
      exact ⟨x, hx2.1, beq_iff_eq.mp hx2.2⟩
    · rintro ⟨e, he, hk⟩
      rw [rowKeyFilter_isEmpty_false_of_mem t e (rowKeyOf dt) he hk]
      rfl

def markerRow : TableEntity :=
  ⟨"exceptions", "20240101000000", "JIRA-1", "2024-01-01T00:10:00", "P1",
   "2024-01-01T00:00:00Z"⟩

theorem spec_C6_witness :
    is_exception_processed false true [] "P1" "2024-01-01T00:00:00Z" = false ∧
    (is_exception_processed true true [markerRow] "P1" "2024-01-01T00:00:00Z" = true ↔
      ∃ e ∈ [markerRow], e.rowKey = rowKeyOf ⟨2024, 1, 1, 0, 0, 0, 0⟩) :=
  ⟨spec_C6.1 true [] "P1" "2024-01-01T00:00:00Z",
   spec_C6.2.2.2 [markerRow] "P1" "2024-01-01T00:00:00Z" ⟨2024, 1, 1, 0, 0, 0, 0⟩
     (by decide)⟩

/-- Claim C5: `query_app_insights` never fails its caller: any non-success
HTTP status (HTTP 500 included), a body on which `response.json()` raises,
a body without a `tables` key, an empty `tables` list, and a first table
some of whose rows cannot be projected by column name, all yield the empty
list rather than an error. -/
theorem spec_C5 :
    (∀ (c : Bool) (resp : HttpResponse), resp.status ≠ 200 →
        query_app_insights c resp = []) ∧
    (∀ (c : Bool) (st : Nat), query_app_insights c ⟨st, none⟩ = []) ∧
    (∀ (c : Bool) (st : Nat), query_app_insights c ⟨st, some ⟨none⟩⟩ = []) ∧
    (∀ (c : Bool) (st : Nat), query_app_insights c ⟨st, some ⟨some []⟩⟩ = []) ∧
    (∀ (c : Bool) (st : Nat) (tbl : AITable) (rest : List AITable),
        tbl.rows.mapM (formatRow (tbl.columns.map (fun col => col.name))) = none →
        query_app_insights c ⟨st, some ⟨some (tbl :: rest)⟩⟩ = []) := by
  refine ⟨?_, ?_, ?_, ?_, ?_⟩
  · intro c resp h
    have hb : (resp.status != 200) = true := by simp [h]
    cases c with
    | false => simp [query_app_insights, queryBody]
    | true => simp [query_app_insights, queryBody, hb]
  · intro c st
    cases c <;> by_cases hs : st = 200 <;> simp [query_app_insights, queryBody, hs]
  · intro c st
    cases c <;> by_cases hs : st = 200 <;> simp [query_app_insights, queryBody, hs]
  · intro c st
    cases c <;> by_cases hs : st = 200 <;> simp [query_app_insights, queryBody, hs]
  · intro c st tbl rest h
    have h2 : List.mapM.loop (formatRow (List.map (fun c => c.name) tbl.columns))
        tbl.rows [] = none := by
      simpa [List.mapM] using h
    cases c <;> by_cases hs : st = 200 <;> simp [query_app_insights, queryBody, hs, h2]

theorem spec_C5_witness :
    query_app_insights true ⟨500, some ⟨some []⟩⟩ = [] ∧
    query_app_insights true ⟨200, some ⟨some [⟨[⟨"timestamp"⟩], [["x"]]⟩]⟩⟩ = [] :=
  ⟨spec_C5.1 true ⟨500, some ⟨some []⟩⟩ (by decide),
   spec_C5.2.2.2.2 true 200 ⟨[⟨"timestamp"⟩], [["x"]]⟩ [] (by decide)⟩

/-- Claim C1: end-to-end: with one fetched record (problemId `P1`,
timestamp `2024-01-01T00:00:00Z`) whose derived row key has no marker in
the store, a working store and a ticket creation returning key `k`, the
pass creates exactly one ticket (one Jira call, `tickets_created = 1`),
performs exactly one mark attempt whose upsert leaves exactly the single
marker row with rowKey `20240101000000`, and returns the summary
`total_exceptions = 1, tickets_created = 1, skipped = 0`. -/
theorem spec_C1 (env : PassEnv) (t : Table) (d : ExceptionDetails) (k : String)
    (hup : env.storeUp = true) (hq : env.queryOk 0 = true)
    (hj : env.jira 0 = .ok k) (hm : env.markOutcomes 0 = [.success])
    (hnew : rowKeyFilter t "20240101000000" = []) :
    (runPass env t [⟨"2024-01-01T00:00:00Z", "P1", d⟩]).1 = ⟨1, 1, 0⟩ ∧
    (runPass env t [⟨"2024-01-01T00:00:00Z", "P1", d⟩]).2.jiraCalls = 1 ∧
    (runPass env t [⟨"2024-01-01T00:00:00Z", "P1", d⟩]).2.markCalls = 1 ∧
    rowKeyFilter (runPass env t [⟨"2024-01-01T00:00:00Z", "P1", d⟩]).2.table
        "20240101000000" =
      [⟨"exceptions", "20240101000000", k, env.now, "P1", "2024-01-01T00:00:00Z"⟩] := by
  have hparse : parseTimestamp "2024-01-01T00:00:00Z" = some ⟨2024, 1, 1, 0, 0, 0, 0⟩ := by
    decide
  have hkey : rowKeyOf ⟨2024, 1, 1, 0, 0, 0, 0⟩ = "20240101000000" := by decide
  have hnp : is_exception_processed env.storeUp (env.queryOk 0) t "P1"
      "2024-01-01T00:00:00Z" = false := by
    rw [hup, hq]
    simp [is_exception_processed, hparse, hkey, hnew]
  have hmk : mark_exception_processed env.storeUp t "P1" "2024-01-01T00:00:00Z" k env.now
      (env.markOutcomes 0) =
      ⟨t ++ [⟨"exceptions", "20240101000000", k, env.now, "P1", "2024-01-01T00:00:00Z"⟩],
        true⟩ := by
    rw [hup, hm]
    have h1 : mark_exception_processed true t "P1" "2024-01-01T00:00:00Z" k env.now
        [.success] =
        ⟨upsertEntity t
          ⟨"exceptions", "20240101000000", k, env.now, "P1", "2024-01-01T00:00:00Z"⟩,
          true⟩ := by
      simp [mark_exception_processed, hparse, hkey, markAttempts]
    rw [h1, upsertEntity_of_not_found t _ hnew]
  have hloop : passLoop env [⟨"2024-01-01T00:00:00Z", "P1", d⟩] 0 (initState t) =
      ⟨t ++ [⟨"exceptions", "20240101000000", k, env.now, "P1", "2024-01-01T00:00:00Z"⟩],
        1, 0, 1, 1, 1⟩ := by
    simp [passLoop, processRecord, initState, hnp, hj, hmk]
  have hrun : runPass env t [⟨"2024-01-01T00:00:00Z", "P1", d⟩] =
      (⟨1, 1, 0⟩,
        ⟨t ++ [⟨"exceptions", "20240101000000", k, env.now, "P1", "2024-01-01T00:00:00Z"⟩],
          1, 0, 1, 1, 1⟩) := by
    simp [runPass, hloop]
  refine ⟨by rw [hrun], by rw [hrun], by rw [hrun], ?_⟩
  rw [hrun]
  show rowKeyFilter
      (t ++ [⟨"exceptions", "20240101000000", k, env.now, "P1", "2024-01-01T00:00:00Z"⟩])
      "20240101000000" = _
  rw [rowKeyFilter_append, hnew]
  simp [rowKeyFilter]

def okEnv : PassEnv :=
  ⟨true, fun _ => true, fun _ => .ok "JIRA-1", fun _ => [.success], "2024-01-01T00:10:00"⟩

theorem spec_C1_witness :
    (runPass okEnv [] [⟨"2024-01-01T00:00:00Z", "P1", ⟨"T", "M", "CD"⟩⟩]).1 = ⟨1, 1, 0⟩ ∧
    (runPass okEnv [] [⟨"2024-01-01T00:00:00Z", "P1", ⟨"T", "M", "CD"⟩⟩]).2.jiraCalls = 1 ∧
    (runPass okEnv [] [⟨"2024-01-01T00:00:00Z", "P1", ⟨"T", "M", "CD"⟩⟩]).2.markCalls = 1 ∧
    rowKeyFilter (runPass okEnv [] [⟨"2024-01-01T00:00:00Z", "P1", ⟨"T", "M", "CD"⟩⟩]).2.table
        "20240101000000" =
      [⟨"exceptions", "20240101000000", "JIRA-1", okEnv.now, "P1",
        "2024-01-01T00:00:00Z"⟩] :=
  spec_C1 okEnv [] ⟨"T", "M", "CD"⟩ "JIRA-1" rfl rfl rfl rfl rfl

def emptyTokenEnv : String → Option String :=
  fun n => if n == "JIRA_TOKEN" then some "" else none

/-- Claim C8 counterexample: the claim says every secret whose environment
variable is set is resolved from the environment with no vault lookup; but
the source tests the value with Python truthiness (`if env_value:`), so a
variable set to the empty string is treated as missing: the name is queued
for a vault lookup, and with the vault lacking every secret, resolution
fails instead of using the environment value. -/
theorem spec_C8_counterexample :
    emptyTokenEnv "JIRA_TOKEN" = some "" ∧
    "JIRA-TOKEN" ∈ secretsToFetch emptyTokenEnv ∧
    get_required_secrets emptyTokenEnv (fun _ => VaultResult.notFound) =
      .error REQUIRED_SECRETS := by
  refine ⟨rfl, by decide, rfl⟩

/-- Claim C8 (amended): for every required secret whose environment
variable (the name with `-` replaced by `_`) is set to a non-empty value,
resolution uses the environment value: the secret is not queued for a vault
lookup, the environment entry is part of the result, any successful
resolution maps the transformed name to the environment value, and if every
queued secret resolves from the vault the whole resolution succeeds —
independently of what the vault holds for this name. -/
theorem spec_C8 (env : String → Option String) (vault : String → VaultResult)
    (s v : String) (hs : s ∈ REQUIRED_SECRETS)
    (hv : env (envNameOf s) = some v) (hne : v ≠ "") :
    s ∉ secretsToFetch env ∧
    (envNameOf s, v) ∈ envSecrets env ∧
    (∀ m, get_required_secrets env vault = .ok m → (envNameOf s, v) ∈ m) ∧
    ((∀ s2 ∈ secretsToFetch env, ∃ w, vault s2 = .found w) →
      ∃ m, get_required_secrets env vault = .ok m ∧ (envNameOf s, v) ∈ m) := by
  have hset : envSet env s = true := by
    simp [envSet, hv, hne]
  have henv : (envNameOf s, v) ∈ envSecrets env := by
    apply List.mem_filterMap.mpr
    refine ⟨s, hs, ?_⟩
    simp [hv, hne]
  refine ⟨?_, henv, ?_, ?_⟩
  · intro hmem
    have h2 := (List.mem_filter.mp hmem).2
    rw [hset] at h2
    simp at h2
  · intro m hm
    simp only [get_required_secrets] at hm
    split at hm
    · have h3 := Except.ok.inj hm
      rw [← h3]
      exact List.mem_append_left _ henv
    · exact absurd hm (by simp)
  · intro hall
    have hnil : (vaultFetch vault (secretsToFetch env)).2 = [] :=
      vaultFetch_missing_nil vault (secretsToFetch env) hall
    refine ⟨envSecrets env ++ (vaultFetch vault (secretsToFetch env)).1, ?_,
      List.mem_append_left _ henv⟩
    simp [get_required_secrets, hnil]

def fullEnv : String → Option String := fun _ => some "x"

def noVault : String → VaultResult := fun _ => VaultResult.notFound

theorem spec_C8_witness :
    "JIRA-TOKEN" ∉ secretsToFetch fullEnv ∧
    (envNameOf "JIRA-TOKEN", "x") ∈ envSecrets fullEnv ∧
    (∀ m, get_required_secrets fullEnv noVault = .ok m →
      (envNameOf "JIRA-TOKEN", "x") ∈ m) ∧
    ((∀ s2 ∈ secretsToFetch fullEnv, ∃ w, noVault s2 = .found w) →
      ∃ m, get_required_secrets fullEnv noVault = .ok m ∧
        (envNameOf "JIRA-TOKEN", "x") ∈ m) :=
  spec_C8 fullEnv noVault "JIRA-TOKEN" "x" (by decide) rfl (by decide)

theorem spec_C7_witness :
    runPass okEnv [markerRow] [] = (⟨0, 0, 0⟩, ⟨[markerRow], 0, 0, 0, 0, 0⟩) :=
  spec_C7 okEnv [markerRow]

theorem spec_C10_witness :
    get_app_insights_data true ⟨500, none⟩ =
      (200, (query_app_insights true ⟨500, none⟩).length) :=
  spec_C10 true ⟨500, none⟩

end AppInsightsJira
